import Mathlib

/-!
Verification development for `jeepyb/cmd/manage_projects.py`.

The Python program is shallowly embedded below.  External effects
(filesystem probes, subprocess exit statuses, the Gerrit database, the
group listings returned by the review server) are inputs of the embedded
functions; the commands the program issues and the error messages it logs
are collected in traces of `Entry` values.  Command strings keep the shape
of the source templates, with interpolated paths and URLs replaced by the
fixed placeholders REMOTE, MIRROR and repo, and shell quoting dropped.
-/

namespace ManageProjects

/-! ### Python primitives -/

/-- Splitting a character list on whitespace runs, accumulating the
current token in reverse. -/
def splitWsAux : List Char → List Char → List String
  | [], acc => if acc.isEmpty then [] else [String.mk acc.reverse]
  | c :: cs, acc =>
    if c.isWhitespace then
      if acc.isEmpty then splitWsAux cs []
      else String.mk acc.reverse :: splitWsAux cs []
    else splitWsAux cs (c :: acc)

/-- Python `s.split()` with no argument: split on runs of whitespace,
discarding empty pieces. -/
def pySplitWs (s : String) : List String :=
  splitWsAux s.data []

/-- Is the first character list a prefix of the second? -/
def isPrefixChars : List Char → List Char → Bool
  | [], _ => true
  | _ :: _, [] => false
  | a :: as, b :: bs => a = b && isPrefixChars as bs

/-- Does the needle occur as a contiguous sublist of the haystack? -/
def containsChars (needle : List Char) : List Char → Bool
  | [] => needle.isEmpty
  | c :: cs => isPrefixChars needle (c :: cs) || containsChars needle cs

/-- Python `needle in hay` for strings: substring containment. -/
def pyContains (needle hay : String) : Bool :=
  containsChars needle.data hay.data

/-- Python `s.strip()`: drop leading and trailing whitespace. -/
def pyStrip (s : String) : String :=
  String.mk (((s.data.dropWhile Char.isWhitespace).reverse.dropWhile
    Char.isWhitespace).reverse)

/-- Python `s.startswith(pre)`. -/
def pyStartsWith (s pre : String) : Bool :=
  isPrefixChars pre.data s.data

/-- Python `s[n:]`: drop the first `n` characters. -/
def pyDropChars (s : String) (n : Nat) : String :=
  String.mk (s.data.drop n)

/-- Python `"%s" % x` where `x` is an optional string: `None` formats as
the literal text `None`. -/
def pyStr : Option String → String
  | none => "None"
  | some s => s

/-- Python truthiness of an optional string: `None` and the empty string
are falsy. -/
def pyTruthy : Option String → Bool
  | none => false
  | some s => s ≠ ""

/-! ### Command runner environment handling (`run_command`, lines 68-80)

```
newenv = os.environ
newenv.update(env)
```

`newenv` is an alias of `os.environ`, so the `update` call mutates the
process environment in place.  The model passes `os.environ` explicitly
and returns both the post-call `os.environ` and the environment given to
the spawned subprocess. -/

/-- An environment, modelled as an association list in insertion order. -/
abbrev Env := List (String × String)

/-- Python `d[k] = v` on a dict: overwrite in place if the key exists,
otherwise append. -/
def dictSet (e : Env) (k v : String) : Env :=
  if e.any (fun q => q.1 = k) then
    e.map (fun q => if q.1 = k then (k, v) else q)
  else e ++ [(k, v)]

/-- Python `d.update(over)`. -/
def dictUpdate (e over : Env) : Env :=
  over.foldl (fun a q => dictSet a q.1 q.2) e

/-- Environment handling of `run_command` (lines 68-80): `newenv` aliases
`os.environ`, so the update mutates it.  Returns
(`os.environ` after the call, environment passed to the subprocess). -/
def run_command_env (osEnviron : Env) (env : Env) : Env × Env :=
  let newenv := dictUpdate osEnviron env
  (newenv, newenv)

/-! ### Trace entries -/

/-- One observable action: a shell/git command issued, or an error-level
log message. -/
inductive Entry
  | cmd (s : String)
  | logError (s : String)
deriving DecidableEq, Repr

/-! ### ACL group pattern (`create_groups_file`, line 209)

The source matches each line of the rendered ACL document against the
regular expression `^\s+.*group\s+(.*)$`.  The model works line by line,
lines stored without their trailing newline; end of line is treated as
satisfying the mandatory whitespace after `group`, which is how the
regular expression behaves on the newline-terminated lines produced by
file iteration.  The greedy `.*` selects the rightmost occurrence of
`group` followed by whitespace, and the greedy `\s+` hands the capture
everything after the maximal whitespace run. -/

/-- Does the literal `group`, followed by whitespace or end of line, occur
at position `i`? -/
def isGroupAt (cs : List Char) (i : Nat) : Bool :=
  ((cs.drop i).take 5 = "group".data) &&
  (match cs.drop (i + 5) with
   | [] => true
   | c :: _ => c.isWhitespace)

/-- Rightmost position of `group`-followed-by-whitespace, at offset ≥ 1
(the leading `\s+` consumes at least one character). -/
def lastGroupIdx (cs : List Char) : Option Nat :=
  ((List.range cs.length).filter (fun i => (i != 0) && isGroupAt cs i)).getLast?

/-- The capture of `re.match(r'^\s+.*group\s+(.*)$', line)`, when the line
matches. -/
def matchGroupLine (line : String) : Option String :=
  match line.data with
  | [] => none
  | c :: _ =>
    if c.isWhitespace then
      match lastGroupIdx line.data with
      | some i => some (String.mk ((line.data.drop (i + 5)).dropWhile Char.isWhitespace))
      | none => none
    else none

/-- Distinct group names referenced by the rendered document, in order of
first appearance of a matching line. -/
def matchedGroups (lines : List String) : List String :=
  lines.filterMap matchGroupLine

/-! ### ACL reconciliation helpers -/

/-- `fetch_config` (lines 127-141), with the two git exit statuses as
inputs. -/
def fetch_config (fetchStatus checkoutStatus : Int) : List Entry × Bool :=
  if fetchStatus ≠ 0 then
    ([Entry.cmd "fetch REMOTE +refs/meta/config:refs/remotes/gerrit-meta/config",
      Entry.logError "Failed to fetch refs/meta/config for project"], false)
  else if checkoutStatus ≠ 0 then
    ([Entry.cmd "fetch REMOTE +refs/meta/config:refs/remotes/gerrit-meta/config",
      Entry.cmd "checkout -B config remotes/gerrit-meta/config",
      Entry.logError "Failed to checkout config for project"], false)
  else
    ([Entry.cmd "fetch REMOTE +refs/meta/config:refs/remotes/gerrit-meta/config",
      Entry.cmd "checkout -B config remotes/gerrit-meta/config"], true)

/-- `copy_acl_config` (lines 144-155).  `aclExists` is
`os.path.exists(acl_config)`, `cpStatus` the exit of `cp`, `diffStatus`
the exit of `git diff --quiet` (0 exactly when the working copy shows no
textual difference).  Returns the trace and the boolean result. -/
def copy_acl_config (aclExists : Bool) (cpStatus diffStatus : Int) : List Entry × Bool :=
  if ¬aclExists then ([], false)
  else if cpStatus = 0 then
    if diffStatus ≠ 0 then
      ([Entry.cmd "cp ACL project.config", Entry.cmd "diff --quiet"], true)
    else
      ([Entry.cmd "cp ACL project.config", Entry.cmd "diff --quiet"], false)
  else ([Entry.cmd "cp ACL project.config"], false)

/-- The commit command of `push_acl_config` (line 159). -/
def commitCmd : String := "commit -a -m Update project config."

/-- The push command of `push_acl_config` (lines 164-166). -/
def metaPushCmd : String := "push REMOTE HEAD:refs/meta/config"

/-- `push_acl_config` (lines 158-170). -/
def push_acl_config (commitStatus pushStatus : Int) : List Entry × Bool :=
  if commitStatus ≠ 0 then
    ([Entry.cmd commitCmd, Entry.logError "Failed to commit config for project"], false)
  else if pushStatus ≠ 0 then
    ([Entry.cmd commitCmd, Entry.cmd metaPushCmd,
      Entry.logError "Failed to push config for project"], false)
  else ([Entry.cmd commitCmd, Entry.cmd metaPushCmd], true)

/-- `_wait_for_group` (lines 183-189): `for x in range(10)` polling loop.
`listings i` is the result of the `(i+1)`-th `gerrit.listGroups()` call.
Returns (number of listGroups calls, number of 1-second sleeps);
recursion on the explicit fuel mirrors the bounded `range(10)`. -/
def waitFrom (listings : Nat → List String) (group : String) (i fuel : Nat) : Nat × Nat :=
  match fuel with
  | 0 => (0, 0)
  | fuel' + 1 =>
    if group ∈ listings i then (1, 0)
    else
      let r := waitFrom listings group (i + 1) fuel'
      (r.1 + 1, r.2 + 1)

/-- `_wait_for_group` entry point: ten iterations of fuel. -/
def wait_for_group (listings : Nat → List String) (group : String) : Nat × Nat :=
  waitFrom listings group 0 10

/-- Result of `get_group_uuid`. -/
structure GroupLookup where
  uuid : Option String
  createRequested : Bool
  listPolls : Nat

/-- `get_group_uuid` (lines 192-201).  `db1 g` is the first
`_get_group_uuid` database query for `g`; if it is empty the group is
created, `_wait_for_group` polls, and `db2 g` is the re-query. -/
def get_group_uuid (db1 db2 : String → Option String)
    (listings : String → Nat → List String) (group : String) : GroupLookup :=
  match db1 group with
  | some uuid => ⟨some uuid, false, 0⟩
  | none =>
    let w := wait_for_group (listings group) group
    ⟨db2 group, true, w.1⟩

/-- The group-collection loop of `create_groups_file` (lines 207-219):
walk the lines, match the group pattern, skip names already collected,
resolve new names, abort with `none` on the first unresolvable name.
`uuids` keeps (group, uuid) pairs in insertion order. -/
def collectUuids (resolve : String → Option String) :
    List String → List (String × String) → Option (List (String × String))
  | [], uuids => some uuids
  | line :: rest, uuids =>
    match matchGroupLine line with
    | none => collectUuids resolve rest uuids
    | some group =>
      if uuids.any (fun q => q.1 = group) then collectUuids resolve rest uuids
      else
        match resolve group with
        | some uuid => collectUuids resolve rest (uuids ++ [(group, uuid)])
        | none => none

/-- Result of `create_groups_file`: the trace, the groups file that was
written (as its (uuid, group) lines; `none` when no write happened), and
the boolean result. -/
structure GroupsResult where
  entries : List Entry
  written : Option (List (String × String))
  ok : Bool

/-- `create_groups_file` (lines 204-228).  On an unresolvable group it
logs and returns early, before any file write and before `git add`; on
success it writes the file only when at least one group was collected,
then stages it. -/
def create_groups_file (resolve : String → Option String)
    (lines : List String) (addStatus : Int) : GroupsResult :=
  match collectUuids resolve lines [] with
  | none => ⟨[Entry.logError "Unable to get UUID for group"], none, false⟩
  | some uuids =>
    let written := if uuids.isEmpty then none
      else some (uuids.map (fun q => (q.2, q.1)))
    if addStatus ≠ 0 then
      ⟨[Entry.cmd "add groups", Entry.logError "Failed to add groups file for project"],
        written, false⟩
    else ⟨[Entry.cmd "add groups"], written, true⟩

/-- The external state an ACL reconciliation step of one project runs
against: git exit statuses, presence of the ACL source file, the rendered
document's lines, the database/listing answers for group resolution, and
an optional exception injected after `raiseAfter` trace entries of the
step body (modelling the `except Exception` handler of lines 560-562). -/
structure AclWorld where
  fetchStatus : Int
  checkoutStatus : Int
  aclExists : Bool
  cpStatus : Int
  diffStatus : Int
  lines : List String
  db1 : String → Option String
  db2 : String → Option String
  listings : String → Nat → List String
  addStatus : Int
  commitStatus : Int
  pushStatus : Int
  raiseAfter : Option Nat

/-- Group resolution as `create_groups_file` sees it: one `get_group_uuid`
outcome per distinct group name. -/
def AclWorld.resolve (w : AclWorld) : String → Option String :=
  fun g => (get_group_uuid w.db1 w.db2 w.listings g).uuid

/-- The guarded body of the ACL step (lines 548-559):
`fetch_config and copy_acl_config and create_groups_file` gate
`push_acl_config`. -/
def aclBody (w : AclWorld) : List Entry :=
  let f := fetch_config w.fetchStatus w.checkoutStatus
  if f.2 then
    let c := copy_acl_config w.aclExists w.cpStatus w.diffStatus
    if c.2 then
      let r := create_groups_file w.resolve w.lines w.addStatus
      if r.ok then f.1 ++ c.1 ++ r.entries ++ (push_acl_config w.commitStatus w.pushStatus).1
      else f.1 ++ c.1 ++ r.entries
    else f.1 ++ c.1
  else f.1

/-- The `finally` block of the ACL step (lines 563-566). -/
def cleanupCmds : List Entry :=
  [Entry.cmd "reset --hard", Entry.cmd "checkout master", Entry.cmd "branch -D config"]

/-- The whole ACL step (lines 547-566): body under `try`, any exception
caught and logged by `except Exception`, cleanup always run by `finally`.
An injected exception truncates the body's trace at `raiseAfter`
entries. -/
def aclStep (w : AclWorld) : List Entry :=
  match w.raiseAfter with
  | none => aclBody w ++ cleanupCmds
  | some n => (aclBody w).take n ++ [Entry.logError "Exception processing ACLS"] ++ cleanupCmds

/-! ### Upstream tracking branch loop (lines 505-519) -/

/-- The branch-enumeration loop of the upstream tracking synchronizer:
the output of `git branch -a` is split on whitespace (Python `.split()`),
tokens not starting with `remotes/upstream` or containing `->` are
skipped, and each surviving token yields a
`checkout -B local_branch branch` command.  Returns the
(local_branch, branch) pairs in order. -/
def upstreamBranchCheckouts (branchAOutput : String) (upstreamPfx : Option String) :
    List (String × String) :=
  (pySplitWs branchAOutput).filterMap fun branch =>
    if ¬(pyStartsWith (pyStrip branch) "remotes/upstream") then none
    else if pyContains "->" branch then none
    else
      let local0 := pyDropChars branch (String.length "remotes/upstream/")
      let lb := match upstreamPfx with
        | some p => p ++ "/" ++ local0
        | none => local0
      some (lb, branch)

/-! ### Refresh-in-place path (lines 448-476) -/

/-- Commands issued on the refresh path (cache checkout exists, project
not just created, gerrit lists the project).  `remotesOutput` is the
output of `git remote`, consulted only when `track_upstream` is set
(Python `and` short-circuits). -/
def refreshCommands (trackUpstream : Bool) (remotesOutput : String)
    (upstream : Option String) : List String :=
  let first :=
    if trackUpstream && ¬(pyContains "upstream" remotesOutput) then
      "remote add upstream " ++ pyStr upstream
    else
      "remote set-url upstream " ++ pyStr upstream
  [first, "remote update --prune", "checkout -B master origin/master"]

/-! ### Per-project processing (`main`, lines 345-566)

The per-project slice of the main loop, with the observed external state
as inputs.  Exceptions are modelled explicitly: the four guarded sites
(`gerrit.createProject`, the initial push, the upstream-tracking push,
and the ACL step body) have `except Exception` handlers in the source and
only log; an exception from `create_github_project` (line 481) or from
`write_acl_config` (line 542) has no handler and escapes the loop body. -/

/-- One declared project together with the observed external state its
processing slice runs against. -/
structure ProjCfg where
  project : String
  /-- `project in project_list` (the snapshot fetched once, line 341). -/
  inList : Bool
  /-- `gerrit.createProject` raises (caught at lines 367-369). -/
  createRaises : Bool
  /-- `os.path.exists(git_mirror_path)` (line 373). -/
  mirrorExists : Bool
  /-- `os.path.exists(repo_path)` (line 386). -/
  repoExists : Bool
  upstream : Option String
  upstreamPfx : Option String
  /-- `'track-upstream' in options` (line 354). -/
  trackUpstream : Bool
  /-- Output of `git remote` on the refresh path (line 455). -/
  remotesOutput : String
  /-- Output of `git branch -a` on the tracking path (line 506). -/
  branchAOutput : String
  /-- `'has-github' in options or default_has_github` (line 480). -/
  doGithub : Bool
  /-- `create_github_project` raises — no handler (lines 481-482). -/
  githubRaises : Bool
  /-- The initial push raises (caught at lines 491-493). -/
  initialPushRaises : Bool
  /-- The tracking push raises (caught at lines 529-531). -/
  trackPushRaises : Bool
  /-- `write_acl_config` raises, e.g. a parameter-substitution failure —
  no handler (lines 541-546). -/
  aclRenderRaises : Bool
  /-- The ACL step's world, `none` when no ACL source is configured. -/
  acl : Option AclWorld

/-- The Python local variables of `main` that persist from one loop
iteration into the next.  `push_string` is unbound before its first
assignment. -/
structure LoopSt where
  pushString : Option String
deriving DecidableEq, Repr

/-- Whether the loop body completed or an unhandled exception escaped. -/
inductive StepResult
  | ok
  | uncaught
deriving DecidableEq, Repr

/-- Outcome of one project's slice: loop state after it, completion
status, the value `push_string` held when `push_string % remote_url`
was evaluated (`none` when the initial-push block did not run;
`some none` would mean the reference found the variable unbound), and
the trace. -/
structure ProjOutcome where
  st : LoopSt
  res : StepResult
  refSaw : Option (Option String)
  trace : List Entry

/-- `push %s +refs/copy/heads/*:refs/heads/*` (line 423). -/
def pushStringImport : String := "push REMOTE +refs/copy/heads/*:refs/heads/*"

/-- `push %s HEAD:refs/heads/master` (line 444). -/
def pushStringInit : String := "push REMOTE HEAD:refs/heads/master"

/-- The materialization step (lines 386-476): fresh paths when the cache
checkout is missing or the project was just created on gerrit, refresh
path otherwise.  Returns the loop state (with any `push_string`
assignment) and the trace. -/
def materialize (st : LoopSt) (p : ProjCfg) (projectCreated : Bool) : LoopSt × List Entry :=
  if !p.repoExists || projectCreated then
    if p.inList then
      (st, Entry.cmd "git clone REMOTE repo" ::
        (if pyTruthy p.upstream then
          [Entry.cmd ("remote add -f upstream " ++ pyStr p.upstream)]
         else []))
    else if pyTruthy p.upstream then
      (⟨some pushStringImport⟩,
       [Entry.cmd ("git clone " ++ pyStr p.upstream ++ " repo"),
        Entry.cmd "fetch origin +refs/heads/*:refs/copy/heads/*",
        Entry.cmd "remote rename origin upstream",
        Entry.cmd "remote add origin REMOTE"])
    else
      (⟨some pushStringInit⟩,
       [Entry.cmd "git init repo",
        Entry.cmd "remote add origin REMOTE",
        Entry.cmd "add .gitreview",
        Entry.cmd "commit -a -m Added .gitreview"])
  else
    (st,
     if p.inList then (refreshCommands p.trackUpstream p.remotesOutput p.upstream).map Entry.cmd
     else [])

/-- The initial-push block (lines 484-493): runs only when the project
was created in this run; `push_string % remote_url` is evaluated inside
the `try`, so an unbound `push_string` would raise a caught and logged
`NameError`. -/
def gerritPush (st : LoopSt) (raises projectCreated : Bool) :
    List Entry × Option (Option String) :=
  if projectCreated then
    match st.pushString with
    | none => ([Entry.logError "Error pushing to Gerrit."], some none)
    | some s =>
      if raises then ([Entry.logError "Error pushing to Gerrit."], some (some s))
      else ([Entry.cmd s, Entry.cmd "push --tags REMOTE"], some (some s))
  else ([], none)

/-- The upstream tracking block (lines 498-531). -/
def trackCmds (p : ProjCfg) : List Entry :=
  Entry.cmd "remote update upstream --prune" ::
    (upstreamBranchCheckouts p.branchAOutput p.upstreamPfx).map
      (fun q => Entry.cmd ("checkout -B " ++ q.1 ++ " " ++ q.2)) ++
    (if p.trackPushRaises then [Entry.logError "Error pushing to Gerrit."]
     else [Entry.cmd "push origin refs/heads/*:refs/heads/*",
           Entry.cmd "push origin --tags"])

/-- One project's slice of the main loop (lines 345-566). -/
def processProject (st : LoopSt) (p : ProjCfg) : ProjOutcome :=
  let created := !p.inList && !p.createRaises
  let t0 := if !p.inList && p.createRaises then
      [Entry.logError "Exception creating project in Gerrit."] else []
  let t1 := if !p.mirrorExists then
      [Entry.cmd "git --bare init MIRROR", Entry.cmd "chown -R MIRROR"] else []
  let m := materialize st p created
  if p.doGithub && p.githubRaises then
    ⟨m.1, StepResult.uncaught, none, t0 ++ t1 ++ m.2⟩
  else
    let t3 := if p.doGithub then [Entry.cmd "create_github_project"] else []
    let gp := gerritPush m.1 p.initialPushRaises created
    let t5 := if p.trackUpstream then trackCmds p else []
    match p.acl with
    | none => ⟨m.1, StepResult.ok, gp.2, t0 ++ t1 ++ m.2 ++ t3 ++ gp.1 ++ t5⟩
    | some w =>
      if p.aclRenderRaises then
        ⟨m.1, StepResult.uncaught, gp.2, t0 ++ t1 ++ m.2 ++ t3 ++ gp.1 ++ t5⟩
      else
        ⟨m.1, StepResult.ok, gp.2, t0 ++ t1 ++ m.2 ++ t3 ++ gp.1 ++ t5 ++ aclStep w⟩

/-- The main loop over the declared projects (lines 345-567): an
unhandled exception in one slice propagates out of the `for` loop, so
later projects are never reached. -/
def mainLoop (st : LoopSt) : List ProjCfg → List (String × StepResult)
  | [] => []
  | p :: rest =>
    let o := processProject st p
    match o.res with
    | StepResult.ok => (p.project, StepResult.ok) :: mainLoop o.st rest
    | StepResult.uncaught => [(p.project, StepResult.uncaught)]

/-! ### Concrete instances used by witnesses and counterexamples -/

/-- A `git branch -a` output whose third line denotes the symbolic
reference of the upstream remote. -/
def symrefListing : String :=
  "* master\n  remotes/origin/master\n  remotes/upstream/HEAD -> upstream/master\n  remotes/upstream/master"

/-- An ACL world where everything succeeds but the copied document shows
no textual difference. -/
def aclNoopWorld : AclWorld :=
  ⟨0, 0, true, 0, 0, [], fun _ => none, fun _ => none, fun _ _ => [], 0, 0, 0, none⟩

/-- An ACL world whose source document is missing on disk. -/
def aclMissingWorld : AclWorld :=
  ⟨0, 0, false, 0, 0, [], fun _ => none, fun _ => none, fun _ _ => [], 0, 0, 0, none⟩

/-- An ACL world whose document references one group that the database
never resolves, even after creation. -/
def aclUnresolvableWorld : AclWorld :=
  ⟨0, 0, true, 0, 1, ["\tpush = group g1"], fun _ => none, fun _ => none,
    fun _ _ => [], 0, 0, 0, none⟩

/-- A project whose GitHub publishing step raises. -/
def cfgGithubBoom : ProjCfg :=
  ⟨"alpha", true, false, true, true, none, none, false, "origin", "",
    true, true, false, false, false, none⟩

/-- A project that processes without incident. -/
def cfgPlain : ProjCfg :=
  ⟨"beta", true, false, true, true, none, none, false, "origin", "",
    false, false, false, false, false, none⟩

/-- A refresh-path project (cache present, known to gerrit) with no
upstream configured and upstream tracking off. -/
def cfgRefreshNoUpstream : ProjCfg :=
  ⟨"gamma", true, false, true, true, none, none, false, "origin", "",
    false, false, false, false, false, none⟩

/-- A project absent from the gerrit listing, with no upstream: the
fresh-init path, which owes an initial push. -/
def cfgFresh : ProjCfg :=
  ⟨"teams/widget", false, false, false, false, none, none, false, "", "",
    false, false, false, false, false, none⟩

/-! ## Helper lemmas -/

theorem waitFrom_le (listings : Nat → List String) (g : String) (i fuel : Nat) :
    (waitFrom listings g i fuel).1 ≤ fuel ∧ (waitFrom listings g i fuel).2 ≤ fuel := by
  induction fuel generalizing i with
  | zero => simp [waitFrom]
  | succ n ih =>
    rw [waitFrom]
    by_cases h : g ∈ listings i
    · simp [h]
    · have := ih (i + 1)
      simp only [h, if_false]
      omega

theorem fetch_config_entries (a b : Int) :
    Entry.cmd commitCmd ∉ (fetch_config a b).1 ∧
    Entry.cmd metaPushCmd ∉ (fetch_config a b).1 := by
  unfold fetch_config
  split
  · decide
  · split
    · decide
    · decide

theorem copy_acl_config_entries (e : Bool) (a b : Int) :
    Entry.cmd commitCmd ∉ (copy_acl_config e a b).1 ∧
    Entry.cmd metaPushCmd ∉ (copy_acl_config e a b).1 := by
  unfold copy_acl_config
  split
  · decide
  · split
    · split
      · decide
      · decide
    · decide

theorem create_groups_file_entries (resolve : String → Option String)
    (lines : List String) (addStatus : Int) :
    Entry.cmd commitCmd ∉ (create_groups_file resolve lines addStatus).entries ∧
    Entry.cmd metaPushCmd ∉ (create_groups_file resolve lines addStatus).entries := by
  cases hcu : collectUuids resolve lines [] with
  | none => simp only [create_groups_file, hcu]; decide
  | some uuids =>
    simp only [create_groups_file, hcu]
    split
    · exact (by decide :
        Entry.cmd commitCmd ∉
            [Entry.cmd "add groups", Entry.logError "Failed to add groups file for project"] ∧
        Entry.cmd metaPushCmd ∉
            [Entry.cmd "add groups", Entry.logError "Failed to add groups file for project"])
    · exact (by decide :
        Entry.cmd commitCmd ∉ [Entry.cmd "add groups"] ∧
        Entry.cmd metaPushCmd ∉ [Entry.cmd "add groups"])

theorem commit_not_in_aclBody (w : AclWorld)
    (h : (create_groups_file w.resolve w.lines w.addStatus).ok = false) :
    Entry.cmd commitCmd ∉ aclBody w ∧ Entry.cmd metaPushCmd ∉ aclBody w := by
  obtain ⟨hf1, hf2⟩ := fetch_config_entries w.fetchStatus w.checkoutStatus
  obtain ⟨hc1, hc2⟩ := copy_acl_config_entries w.aclExists w.cpStatus w.diffStatus
  obtain ⟨hg1, hg2⟩ := create_groups_file_entries w.resolve w.lines w.addStatus
  simp only [aclBody]
  split
  · split
    · split
      · next hok => rw [h] at hok; exact absurd hok (by simp)
      · simp only [List.mem_append]
        constructor <;> rintro ((hm | hm) | hm)
        exacts [hf1 hm, hc1 hm, hg1 hm, hf2 hm, hc2 hm, hg2 hm]
    · simp only [List.mem_append]
      constructor <;> rintro (hm | hm)
      exacts [hf1 hm, hc1 hm, hf2 hm, hc2 hm]
  · exact ⟨hf1, hf2⟩

theorem commit_not_in_aclStep (w : AclWorld)
    (h : (create_groups_file w.resolve w.lines w.addStatus).ok = false) :
    Entry.cmd commitCmd ∉ aclStep w ∧ Entry.cmd metaPushCmd ∉ aclStep w := by
  obtain ⟨hb1, hb2⟩ := commit_not_in_aclBody w h
  simp only [aclStep]
  cases w.raiseAfter with
  | none =>
    simp only [List.mem_append]
    constructor <;> rintro (hm | hm)
    exacts [hb1 hm, absurd hm (by decide), hb2 hm, absurd hm (by decide)]
  | some n =>
    simp only [List.mem_append]
    constructor <;> rintro ((hm | hm) | hm)
    exacts [hb1 (List.take_subset n _ hm), absurd hm (by decide), absurd hm (by decide),
      hb2 (List.take_subset n _ hm), absurd hm (by decide), absurd hm (by decide)]

theorem collect_none_of_unresolvable (resolve : String → Option String) :
    ∀ (lines : List String) (acc : List (String × String)),
      (∀ q ∈ acc, resolve q.1 = some q.2) →
      (∃ g ∈ matchedGroups lines, resolve g = none) →
      collectUuids resolve lines acc = none := by
  intro lines
  induction lines with
  | nil =>
    intro acc _ h
    simp [matchedGroups] at h
  | cons line rest ih =>
    rintro acc hacc ⟨g, hg, hgr⟩
    cases hm : matchGroupLine line with
    | none =>
      have hg' : g ∈ matchedGroups rest := by
        simpa [matchedGroups, List.filterMap_cons, hm] using hg
      simpa [collectUuids, hm] using ih acc hacc ⟨g, hg', hgr⟩
    | some g0 =>
      have hgmem : g = g0 ∨ g ∈ matchedGroups rest := by
        simpa [matchedGroups, List.filterMap_cons, hm] using hg
      simp only [collectUuids, hm]
      by_cases hin : acc.any (fun q => q.1 = g0) = true
      · have hg' : g ∈ matchedGroups rest := by
          rcases hgmem with rfl | hr
          · obtain ⟨q, hq, hq1⟩ := by
              simpa only [List.any_eq_true, decide_eq_true_eq] using hin
            rw [← hq1, hacc q hq] at hgr
            exact absurd hgr (by simp)
          · exact hr
        simpa [hin] using ih acc hacc ⟨g, hg', hgr⟩
      · simp only [hin, if_false]
        cases hres : resolve g0 with
        | none => rfl
        | some u =>
          have hg' : g ∈ matchedGroups rest := by
            rcases hgmem with rfl | hr
            · rw [hres] at hgr; exact absurd hgr (by simp)
            · exact hr
          have hacc' : ∀ q ∈ acc ++ [(g0, u)], resolve q.1 = some q.2 := by
            intro q hq
            rcases List.mem_append.mp hq with hq' | hq'
            · exact hacc q hq'
            · rcases List.mem_singleton.mp hq' with rfl
              exact hres
          exact ih (acc ++ [(g0, u)]) hacc' ⟨g, hg', hgr⟩

theorem collect_some_of_resolvable (resolve : String → Option String) :
    ∀ (lines : List String) (acc : List (String × String)),
      (∀ g ∈ matchedGroups lines, (resolve g).isSome = true) →
      ∃ uuids, collectUuids resolve lines acc = some uuids ∧
        (∀ q ∈ acc, q ∈ uuids) ∧
        (∀ q ∈ uuids, q ∈ acc ∨ resolve q.1 = some q.2) ∧
        (∀ g ∈ matchedGroups lines, ∃ u, (g, u) ∈ uuids) := by
  intro lines
  induction lines with
  | nil =>
    intro acc _
    refine ⟨acc, rfl, fun q hq => hq, fun q hq => Or.inl hq, ?_⟩
    simp [matchedGroups]
  | cons line rest ih =>
    intro acc hres
    cases hm : matchGroupLine line with
    | none =>
      have hres' : ∀ g ∈ matchedGroups rest, (resolve g).isSome = true := by
        intro g hg
        exact hres g (by simpa [matchedGroups, List.filterMap_cons, hm] using hg)
      obtain ⟨uuids, h1, h2, h3, h4⟩ := ih acc hres'
      refine ⟨uuids, by simpa [collectUuids, hm] using h1, h2, h3, ?_⟩
      intro g hg
      exact h4 g (by simpa [matchedGroups, List.filterMap_cons, hm] using hg)
    | some g0 =>
      have hmG : matchedGroups (line :: rest) = g0 :: matchedGroups rest := by
        simp [matchedGroups, List.filterMap_cons, hm]
      have hres' : ∀ g ∈ matchedGroups rest, (resolve g).isSome = true := by
        intro g hg
        exact hres g (by rw [hmG]; exact List.mem_cons_of_mem _ hg)
      simp only [collectUuids, hm]
      by_cases hin : acc.any (fun q => q.1 = g0) = true
      · obtain ⟨uuids, h1, h2, h3, h4⟩ := ih acc hres'
        refine ⟨uuids, by simpa [hin] using h1, h2, h3, ?_⟩
        intro g hg
        rw [hmG] at hg
        rcases List.mem_cons.mp hg with rfl | hg'
        · obtain ⟨q, hq, hq1⟩ := by
            simpa only [List.any_eq_true, decide_eq_true_eq] using hin
          exact ⟨q.2, by rw [← hq1]; exact h2 q hq⟩
        · exact h4 g hg'
      · have hg0 : (resolve g0).isSome = true :=
          hres g0 (by rw [hmG]; exact List.mem_cons_self g0 _)
        cases hres0 : resolve g0 with
        | none => rw [hres0] at hg0; exact absurd hg0 (by simp)
        | some u =>
          have hacc' : ∀ g ∈ matchedGroups rest, (resolve g).isSome = true := hres'
          obtain ⟨uuids, h1, h2, h3, h4⟩ := ih (acc ++ [(g0, u)]) hacc'
          refine ⟨uuids, by simp only [hin, if_false, hres0]; exact h1, ?_, ?_, ?_⟩
          · intro q hq
            exact h2 q (List.mem_append.mpr (Or.inl hq))
          · intro q hq
            rcases h3 q hq with hq' | hq'
            · rcases List.mem_append.mp hq' with hq'' | hq''
              · exact Or.inl hq''
              · rcases List.mem_singleton.mp hq'' with rfl
                exact Or.inr hres0
            · exact Or.inr hq'
          · intro g hg
            rw [hmG] at hg
            rcases List.mem_cons.mp hg with rfl | hg'
            · exact ⟨u, h2 (g, u) (List.mem_append.mpr (Or.inr (List.mem_singleton.mpr rfl)))⟩
            · exact h4 g hg'

theorem materialize_keeps_state (st : LoopSt) (p : ProjCfg) (c : Bool)
    (h : p.inList = true) : (materialize st p c).1 = st := by
  unfold materialize
  split
  · simp [h]
  · rfl

theorem materialize_created_assigns (st : LoopSt) (p : ProjCfg)
    (h : p.inList = false) : ((materialize st p true).1.pushString).isSome = true := by
  by_cases hu : pyTruthy p.upstream = true
  · simp [materialize, h, hu]
  · simp [materialize, h, hu]

theorem gerritPush_saw_undefined (st : LoopSt) (r c : Bool)
    (h : (gerritPush st r c).2 = some none) : c = true ∧ st.pushString = none := by
  unfold gerritPush at h
  split at h
  · next hc =>
    refine ⟨hc, ?_⟩
    split at h
    · next hps => exact hps
    · next s hps =>
      split at h <;> simp at h
  · simp at h

theorem processProject_refSaw (st : LoopSt) (p : ProjCfg) :
    (processProject st p).refSaw = none ∨
    (processProject st p).refSaw =
      (gerritPush (materialize st p (!p.inList && !p.createRaises)).1
        p.initialPushRaises (!p.inList && !p.createRaises)).2 := by
  unfold processProject
  cases hgb : p.doGithub && p.githubRaises with
  | true => simp
  | false =>
    cases hacl : p.acl with
    | none => simp [hacl]
    | some w =>
      cases har : p.aclRenderRaises <;> simp [hacl, har]

theorem refSaw_never_undefined (st : LoopSt) (p : ProjCfg) :
    (processProject st p).refSaw ≠ some none := by
  intro h
  rcases processProject_refSaw st p with h' | h'
  · rw [h'] at h
    exact absurd h (by simp)
  · rw [h'] at h
    obtain ⟨hc, hnone⟩ := gerritPush_saw_undefined _ _ _ h
    have hIn : p.inList = false := by
      rw [Bool.and_eq_true] at hc
      have h1 := hc.1
      cases hpl : p.inList
      · rfl
      · rw [hpl] at h1
        simp at h1
    rw [hc] at hnone
    have hs := materialize_created_assigns st p hIn
    rw [hnone] at hs
    simp at hs

/-! ## Claim theorems -/

/-- Claim C1: if the copy of the rendered ACL document over the metadata
branch's working copy produces no textual difference (`git diff --quiet`
exits 0), the ACL step issues no commit and no push to the meta ref,
logs no error (it is reported as success), and the cleanup commands
still run as the step's suffix. -/
theorem acl_unchanged_is_noop (w : AclWorld)
    (hf : w.fetchStatus = 0) (hk : w.checkoutStatus = 0) (ha : w.aclExists = true)
    (hcp : w.cpStatus = 0) (hd : w.diffStatus = 0) (hr : w.raiseAfter = none) :
    Entry.cmd commitCmd ∉ aclStep w ∧
    Entry.cmd metaPushCmd ∉ aclStep w ∧
    (∀ msg, Entry.logError msg ∉ aclStep w) ∧
    List.IsSuffix cleanupCmds (aclStep w) := by
  have hstep : aclStep w =
      [Entry.cmd "fetch REMOTE +refs/meta/config:refs/remotes/gerrit-meta/config",
       Entry.cmd "checkout -B config remotes/gerrit-meta/config",
       Entry.cmd "cp ACL project.config", Entry.cmd "diff --quiet"] ++ cleanupCmds := by
    simp [aclStep, hr, aclBody, fetch_config, copy_acl_config, hf, hk, ha, hcp, hd]
  refine ⟨by rw [hstep]; decide, by rw [hstep]; decide, ?_, by rw [hstep]; exact ⟨_, rfl⟩⟩
  intro msg
  rw [hstep]
  simp [cleanupCmds]

/-- Witness for C1 at a concrete converged world. -/
theorem acl_unchanged_is_noop_witness :
    Entry.cmd commitCmd ∉ aclStep aclNoopWorld ∧
    Entry.cmd metaPushCmd ∉ aclStep aclNoopWorld :=
  ⟨(acl_unchanged_is_noop aclNoopWorld rfl rfl rfl rfl rfl rfl).1,
   (acl_unchanged_is_noop aclNoopWorld rfl rfl rfl rfl rfl rfl).2.1⟩

/-- Claim C2: group resolution is all-or-nothing.  If some group matched
by the access-rule pattern does not resolve (even after creation), no
groups file is written, the step fails, and no commit or meta push is
issued; if every matched group resolves, the collected table is correct
and complete, the groups file written is the full table (when any group
was matched), and the `git add groups` staging command is issued. -/
theorem acl_group_resolution_all_or_nothing (w : AclWorld) :
    ((∃ g ∈ matchedGroups w.lines, w.resolve g = none) →
      (create_groups_file w.resolve w.lines w.addStatus).written = none ∧
      (create_groups_file w.resolve w.lines w.addStatus).ok = false ∧
      Entry.cmd commitCmd ∉ aclStep w ∧
      Entry.cmd metaPushCmd ∉ aclStep w) ∧
    ((∀ g ∈ matchedGroups w.lines, (w.resolve g).isSome = true) →
      ∃ uuids, collectUuids w.resolve w.lines [] = some uuids ∧
        (∀ q ∈ uuids, w.resolve q.1 = some q.2) ∧
        (∀ g ∈ matchedGroups w.lines, ∃ u, (g, u) ∈ uuids) ∧
        (matchedGroups w.lines ≠ [] →
          (create_groups_file w.resolve w.lines w.addStatus).written =
            some (uuids.map (fun q => (q.2, q.1)))) ∧
        Entry.cmd "add groups" ∈ (create_groups_file w.resolve w.lines w.addStatus).entries) := by
  constructor
  · intro hex
    have hcol : collectUuids w.resolve w.lines [] = none :=
      collect_none_of_unresolvable w.resolve w.lines [] (by simp) hex
    have hfail : (create_groups_file w.resolve w.lines w.addStatus).ok = false := by
      simp [create_groups_file, hcol]
    obtain ⟨h1, h2⟩ := commit_not_in_aclStep w hfail
    exact ⟨by simp [create_groups_file, hcol], hfail, h1, h2⟩
  · intro hall
    obtain ⟨uuids, h1, h2, h3, h4⟩ := collect_some_of_resolvable w.resolve w.lines [] hall
    refine ⟨uuids, h1, ?_, h4, ?_, ?_⟩
    · intro q hq
      rcases h3 q hq with hq' | hq'
      · simp at hq'
      · exact hq'
    · intro hne
      have hne' : uuids.isEmpty = false := by
        cases hm : matchedGroups w.lines with
        | nil => exact absurd hm hne
        | cons g gs =>
          obtain ⟨u, hu⟩ := h4 g (by rw [hm]; exact List.mem_cons_self g gs)
          cases uuids with
          | nil => simp at hu
          | cons a l => rfl
      by_cases hadd : w.addStatus ≠ 0
      · simp [create_groups_file, h1, hadd, hne']
      · simp [create_groups_file, h1, hadd, hne']
    · by_cases hadd : w.addStatus ≠ 0
      · simp [create_groups_file, h1, hadd]
      · simp [create_groups_file, h1, hadd]

/-- Witness for C2 at a world whose single referenced group never
resolves: no groups file is written and the step fails. -/
theorem acl_group_resolution_witness :
    (create_groups_file aclUnresolvableWorld.resolve aclUnresolvableWorld.lines
        aclUnresolvableWorld.addStatus).written = none ∧
    (create_groups_file aclUnresolvableWorld.resolve aclUnresolvableWorld.lines
        aclUnresolvableWorld.addStatus).ok = false := by
  have h := (acl_group_resolution_all_or_nothing aclUnresolvableWorld).1
    ⟨"g1", by decide, rfl⟩
  exact ⟨h.1, h.2.1⟩

/-- Claim C3, divergence: the branch listing is split on whitespace, so
the symbolic-reference line
`remotes/upstream/HEAD -> upstream/master` is shattered into tokens; its
first token passes both filters and a `checkout -B upstream/HEAD`
command is issued — the symbolic-reference entry is turned into a
created/force-reset local branch, contrary to the claim. -/
theorem symref_line_yields_branch_checkout :
    upstreamBranchCheckouts symrefListing (some "upstream") =
      [("upstream/HEAD", "remotes/upstream/HEAD"),
       ("upstream/master", "remotes/upstream/master")] ∧
    ("upstream/HEAD", "remotes/upstream/HEAD") ∈
      upstreamBranchCheckouts symrefListing (some "upstream") := by
  have h : upstreamBranchCheckouts symrefListing (some "upstream") =
      [("upstream/HEAD", "remotes/upstream/HEAD"),
       ("upstream/master", "remotes/upstream/master")] := by rfl
  exact ⟨h, by rw [h]; exact List.mem_cons_self _ _⟩

/-- Claim C4, divergence: `newenv = os.environ` aliases the process
environment, so the first call's override `GIT_SSH` is still present in
`os.environ` after the call and is seen by a second call made with no
overrides — overrides are not copy-on-call. -/
theorem env_override_persists_across_calls :
    (run_command_env ((run_command_env [] [("GIT_SSH", "wrapper")]).1) []).2 =
      [("GIT_SSH", "wrapper")] ∧
    (run_command_env ((run_command_env [] [("GIT_SSH", "wrapper")]).1) []).2 ≠
      ([] : Env) :=
  ⟨rfl, by decide⟩

/-- Claim C5, divergence: `create_github_project` is called with no
surrounding exception handler, so when GitHub publishing raises for the
first project the exception escapes the per-project loop body and the
second project — which on its own processes fine — is never reached. -/
theorem github_exception_aborts_run :
    mainLoop ⟨none⟩ [cfgGithubBoom, cfgPlain] = [("alpha", StepResult.uncaught)] ∧
    mainLoop ⟨none⟩ [cfgPlain] = [("beta", StepResult.ok)] :=
  ⟨rfl, rfl⟩

/-- Claim C6, divergence: on the refresh path a project with no upstream
configured and upstream tracking off still falls into the `else` arm and
issues `remote set-url upstream None` — an upstream-remote mutation with
no upstream configured. -/
theorem refresh_mutates_unconfigured_upstream :
    (processProject ⟨none⟩ cfgRefreshNoUpstream).trace =
      [Entry.cmd "remote set-url upstream None",
       Entry.cmd "remote update --prune",
       Entry.cmd "checkout -B master origin/master"] ∧
    Entry.cmd "remote set-url upstream None" ∈
      (processProject ⟨none⟩ cfgRefreshNoUpstream).trace := by
  have h : (processProject ⟨none⟩ cfgRefreshNoUpstream).trace =
      [Entry.cmd "remote set-url upstream None",
       Entry.cmd "remote update --prune",
       Entry.cmd "checkout -B master origin/master"] := by rfl
  exact ⟨h, by rw [h]; exact List.mem_cons_self _ _⟩

/-- Claim C7: for every outcome of the ACL step — success, project-fatal
error at any gated sub-step, or an exception raised after any number of
actions — the trace ends with the cleanup sequence: hard reset, checkout
of the default branch, deletion of the local config branch. -/
theorem acl_cleanup_always_runs (w : AclWorld) :
    List.IsSuffix cleanupCmds (aclStep w) := by
  cases h : w.raiseAfter with
  | none => exact ⟨aclBody w, by simp [aclStep, h]⟩
  | some n =>
    exact ⟨(aclBody w).take n ++ [Entry.logError "Exception processing ACLS"],
      by simp [aclStep, h]⟩

/-- Claim C8: waiting for a created group is bounded — at most 10
listGroups polls and at most 10 one-second sleeps; when the group is
absent from the database its creation is requested; and when even the
post-creation re-query fails the lookup returns `none` (the step is
treated as failed, with no further retry). -/
theorem group_creation_poll_bounded (db1 db2 : String → Option String)
    (listings : String → Nat → List String) (g : String) :
    (wait_for_group (listings g) g).1 ≤ 10 ∧
    (wait_for_group (listings g) g).2 ≤ 10 ∧
    (db1 g = none → (get_group_uuid db1 db2 listings g).createRequested = true ∧
      (get_group_uuid db1 db2 listings g).listPolls = (wait_for_group (listings g) g).1) ∧
    (db1 g = none → db2 g = none → (get_group_uuid db1 db2 listings g).uuid = none) := by
  refine ⟨(waitFrom_le (listings g) g 0 10).1, (waitFrom_le (listings g) g 0 10).2, ?_, ?_⟩
  · intro h
    constructor <;> simp [get_group_uuid, h, wait_for_group]
  · intro h1 h2
    simp [get_group_uuid, h1, h2]

/-- Witness for C8 at a group the database never resolves and the
listing never shows. -/
theorem group_creation_poll_bounded_witness :
    (wait_for_group ((fun _ _ => ([] : List String)) "core-reviewers") "core-reviewers").1 ≤ 10 ∧
    (get_group_uuid (fun _ => (none : Option String)) (fun _ => (none : Option String))
        (fun _ _ => ([] : List String)) "core-reviewers").uuid = none :=
  ⟨(group_creation_poll_bounded (fun _ => none) (fun _ => none)
      (fun _ _ => []) "core-reviewers").1,
   (group_creation_poll_bounded (fun _ => none) (fun _ => none)
      (fun _ _ => []) "core-reviewers").2.2.2 rfl rfl⟩

/-- Claim C9, counterexample to the claimed reachability: there is no
loop state and no project configuration for which the initial-push block
evaluates `push_string` while the variable is unbound, because an owed
initial push (`project_created`) implies the project was absent from the
review-server listing, which forces one of the two assigning branches. -/
theorem push_string_undefined_unreachable :
    ¬ ∃ (st : LoopSt) (p : ProjCfg), (processProject st p).refSaw = some none := by
  rintro ⟨st, p, h⟩
  exact refSaw_never_undefined st p h

/-- Claim C9, amended: `push_string` is left untouched on the
clone-from-review-server and refresh paths, is always assigned when the
project was just created on the review server, and consequently the
later reference under `project_created` never sees an undefined
value. -/
theorem push_string_reference_always_defined (st : LoopSt) (p : ProjCfg) :
    (∀ c, p.inList = true → (materialize st p c).1 = st) ∧
    (p.inList = false → ((materialize st p true).1.pushString).isSome = true) ∧
    (processProject st p).refSaw ≠ some none :=
  ⟨fun c h => materialize_keeps_state st p c h,
   fun h => materialize_created_assigns st p h,
   refSaw_never_undefined st p⟩

/-- Witness for the amended C9 at a fresh-init project. -/
theorem push_string_reference_always_defined_witness :
    ((materialize ⟨none⟩ cfgFresh true).1.pushString).isSome = true ∧
    (processProject ⟨none⟩ cfgFresh).refSaw ≠ some none :=
  ⟨(push_string_reference_always_defined ⟨none⟩ cfgFresh).2.1 rfl,
   (push_string_reference_always_defined ⟨none⟩ cfgFresh).2.2⟩

/-- Claim C10: when the ACL source document is missing on disk,
`copy_acl_config` returns the same `false` as the unchanged-document
case, issues no command and logs nothing, and the ACL step for such a
world issues no commit, no meta push, and logs no error — a silent skip
indistinguishable from a converged no-op. -/
theorem missing_acl_source_silent_noop (w : AclWorld)
    (ha : w.aclExists = false) (hf : w.fetchStatus = 0) (hk : w.checkoutStatus = 0)
    (hr : w.raiseAfter = none) :
    (copy_acl_config w.aclExists w.cpStatus w.diffStatus).2 = false ∧
    (copy_acl_config w.aclExists w.cpStatus w.diffStatus).2 = (copy_acl_config true 0 0).2 ∧
    (copy_acl_config w.aclExists w.cpStatus w.diffStatus).1 = [] ∧
    Entry.cmd commitCmd ∉ aclStep w ∧
    Entry.cmd metaPushCmd ∉ aclStep w ∧
    (∀ msg, Entry.logError msg ∉ aclStep w) := by
  have hcopy : copy_acl_config w.aclExists w.cpStatus w.diffStatus = ([], false) := by
    simp [copy_acl_config, ha]
  have hstep : aclStep w =
      [Entry.cmd "fetch REMOTE +refs/meta/config:refs/remotes/gerrit-meta/config",
       Entry.cmd "checkout -B config remotes/gerrit-meta/config"] ++ cleanupCmds := by
    simp [aclStep, hr, aclBody, fetch_config, hf, hk, hcopy]
  refine ⟨by rw [hcopy], by rw [hcopy]; rfl, by rw [hcopy], by rw [hstep]; decide,
    by rw [hstep]; decide, ?_⟩
  intro msg
  rw [hstep]
  simp [cleanupCmds]

/-- Witness for C10 at a concrete world with the ACL source missing. -/
theorem missing_acl_source_silent_noop_witness :
    (copy_acl_config aclMissingWorld.aclExists aclMissingWorld.cpStatus
        aclMissingWorld.diffStatus).2 = false ∧
    Entry.cmd commitCmd ∉ aclStep aclMissingWorld :=
  ⟨(missing_acl_source_silent_noop aclMissingWorld rfl rfl rfl rfl).1,
   (missing_acl_source_silent_noop aclMissingWorld rfl rfl rfl rfl).2.2.2.1⟩

end ManageProjects
